import Mathlib

set_option maxRecDepth 8192

/-!
Verification development for the itinerary route-optimization engine in
`daily-schedule-planner/lib/route-optimizer.ts`.

Modelling conventions (shallow embedding):
* JavaScript numbers are modelled as real numbers (`ℝ`).
* The global `Math.random()` source is modelled explicitly: every consumer
  receives the fixed underlying stream `q : ℕ → ℝ` together with the current
  stream position `pos : ℕ`, and returns the advanced position.  A call to
  `Math.random()` reads `q pos` and advances to `pos + 1`.  This is the honest
  rendering of a single shared mutable random generator.
* `Array.prototype.sort` with the comparator `(a, b) => b.priority - a.priority`
  (stable per the ECMAScript specification) is modelled as a stable insertion
  sort; likewise the type-then-priority comparator of the alternate plan.
  `sort(() => Math.random() - 0.5)` (the random shuffle) is modelled as an
  insertion sort whose comparisons are driven by fresh draws from the stream;
  the engine only relies on the result being a permutation.
* JS truthiness of the optional `maxTime` argument is rendered faithfully:
  `maxTime = some 0` behaves like `none` (both `if (maxTime)` and
  `maxTime && ...` are falsy at `0`).
-/

/-- A destination, as entered by the user (`interface ScheduleItem`). -/
structure ScheduleItem where
  id : String
  name : String
  type : String
  priority : ℝ
  dwellTime : ℝ
  targetArrival : Option String
  notes : Option String

/-- Per-leg synthesized travel attributes (`interface RouteFactors`). -/
structure RouteFactors where
  distance : ℝ
  walkingDistance : ℝ
  trafficLights : ℝ
  expediteRatio : ℝ
  slowRatio : ℝ
  congestionRatio : ℝ
  unknownRatio : ℝ
  duration : ℝ
  dailySales : ℝ
  rating : ℝ
  cost : ℝ

/-- The metrics block of an optimization result. -/
structure OptMetrics where
  totalDistance : ℝ
  totalTime : ℝ
  timeSaved : ℝ
  costSaved : ℝ
  droppedPOIs : List ScheduleItem

/-- The durable output (`interface OptimizationResult`). -/
structure OptimizationResult where
  originalRoute : List ScheduleItem
  optimizedRoute : List ScheduleItem
  userPlan : List ScheduleItem
  alternativePlan : Option (List ScheduleItem)
  metrics : OptMetrics

/-- The fixed fallback coordinate substituted for unknown location names
(`{ lat: 12.9716, lng: 77.5946 }`). -/
noncomputable def fallbackCoord : ℝ × ℝ := (12.9716, 77.5946)

/-- The ten-entry known-coordinate table (`const mockCoordinates`). -/
noncomputable def mockCoordinates (name : String) : Option (ℝ × ℝ) :=
  if name = "Home" then some (12.9716, 77.5946)
  else if name = "Office" then some (12.9352, 77.6245)
  else if name = "College" then some (12.9279, 77.6271)
  else if name = "City Mall" then some (12.9698, 77.6469)
  else if name = "Local Temple" then some (12.9634, 77.5855)
  else if name = "Hospital" then some (12.9591, 77.6402)
  else if name = "Restaurant" then some (12.9667, 77.6102)
  else if name = "Bank" then some (12.9548, 77.6321)
  else if name = "Gym" then some (12.9423, 77.6156)
  else if name = "Park" then some (12.9512, 77.5982)
  else none

/-- Name resolution with fallback: `mockCoordinates[point] || fallback`. -/
noncomputable def resolveCoord (name : String) : ℝ × ℝ :=
  (mockCoordinates name).getD fallbackCoord

/-- Model of `Math.atan2`, rendered by the usual case analysis on the quadrant. -/
noncomputable def atan2 (y x : ℝ) : ℝ :=
  if 0 < x then Real.arctan (y / x)
  else if x < 0 then
    (if 0 ≤ y then Real.arctan (y / x) + Real.pi else Real.arctan (y / x) - Real.pi)
  else
    (if 0 < y then Real.pi / 2 else if y < 0 then -(Real.pi / 2) else 0)

/-- Haversine great-circle distance between two named locations
(`function calculateDistance`). -/
noncomputable def calculateDistance (point1 point2 : String) : ℝ :=
  let coord1 := resolveCoord point1
  let coord2 := resolveCoord point2
  let dLat := (coord2.1 - coord1.1) * Real.pi / 180
  let dLng := (coord2.2 - coord1.2) * Real.pi / 180
  let a := Real.sin (dLat / 2) * Real.sin (dLat / 2) +
    Real.cos (coord1.1 * Real.pi / 180) * Real.cos (coord2.1 * Real.pi / 180) *
      Real.sin (dLng / 2) * Real.sin (dLng / 2)
  let c := 2 * atan2 (Real.sqrt a) (Real.sqrt (1 - a))
  6371 * c

/-- The Travel Factor Synthesizer (`function generateRouteFactors`).
Consumes exactly ten draws in the source's evaluation order (the base travel
time is drawn first, then the object-literal fields top to bottom). -/
noncomputable def generateRouteFactors (q : ℕ → ℝ) (fromLoc toLoc : String)
    (pos : ℕ) : RouteFactors × ℕ :=
  let distance := calculateDistance fromLoc toLoc
  let baseTime := distance * 3 + q pos * 10
  ({ distance := distance
     walkingDistance := distance * 0.1 + q (pos + 1) * 0.5
     trafficLights := ((⌊distance * 2 + q (pos + 2) * 3⌋ : ℤ) : ℝ)
     expediteRatio := 0.4 + q (pos + 3) * 0.4
     slowRatio := 0.2 + q (pos + 4) * 0.3
     congestionRatio := 0.1 + q (pos + 5) * 0.2
     unknownRatio := 0.1 + q (pos + 6) * 0.1
     duration := baseTime
     dailySales := ((⌊q (pos + 7) * 1000⌋ : ℤ) : ℝ) + 100
     rating := 3.5 + q (pos + 8) * 1.5
     cost := distance * 15 + q (pos + 9) * 50 }, pos + 10)

/-- The Desirability Scorer (`function calculateDSRScore`). -/
noncomputable def calculateDSRScore (factors : RouteFactors) (priority : ℝ) : ℝ :=
  let spatialScore := 1 -
    min (factors.distance / 10) 1 * 0.4 -
    min (factors.walkingDistance / 2) 1 * 0.3 -
    min (factors.trafficLights / 10) 1 * 0.3
  let trafficScore := RouteFactors.expediteRatio factors * 0.6 +
    (1 - RouteFactors.congestionRatio factors) * 0.4
  let serviceScore := min (factors.rating / 5) 1 * 0.7 +
    min (factors.dailySales / 1000) 1 * 0.3
  let combinedScore := spatialScore * 0.3 + trafficScore * 0.3 + serviceScore * 0.4
  let priorityWeight := priority / 5
  combinedScore * 0.7 + priorityWeight * 0.3

/-- One step of the random shuffle: insert `x` into the list, walking past each
element while the random comparator keeps `x` behind it (one draw per
comparison).  Models one insertion of `sort(() => Math.random() - 0.5)`. -/
noncomputable def randInsert (q : ℕ → ℝ) (x : ScheduleItem) :
    List ScheduleItem → ℕ → List ScheduleItem × ℕ
  | [], pos => ([x], pos)
  | y :: ys, pos =>
    if q pos < 0.5 then (x :: y :: ys, pos + 1)
    else
      let r := randInsert q x ys (pos + 1)
      (y :: r.1, r.2)

/-- The random shuffle `[...currentRoute].sort(() => Math.random() - 0.5)`,
modelled as an insertion sort driven by stream draws.  The engine relies only
on the result being a permutation of its input. -/
noncomputable def randomShuffle (q : ℕ → ℝ) :
    List ScheduleItem → ℕ → List ScheduleItem × ℕ
  | [], pos => ([], pos)
  | x :: xs, pos =>
    let r := randomShuffle q xs pos
    randInsert q x r.1 r.2

/-- The per-trial walk of a candidate route (the inner `for` loop of the
Monte-Carlo search): accumulates `(routeScore, totalTime, totalCost)` over the
legs and then adds the final leg to the end location (duration and cost only). -/
noncomputable def walkAux (q : ℕ → ℝ) (loc endLocation : String) :
    List ScheduleItem → (ℝ × ℝ × ℝ) → ℕ → (ℝ × ℝ × ℝ) × ℕ
  | [], acc, pos =>
    let f := generateRouteFactors q loc endLocation pos
    ((acc.1, acc.2.1 + f.1.duration, acc.2.2 + f.1.cost), f.2)
  | item :: rest, acc, pos =>
    let f := generateRouteFactors q loc item.name pos
    walkAux q item.name endLocation rest
      (acc.1 + calculateDSRScore f.1 item.priority,
       acc.2.1 + f.1.duration + item.dwellTime,
       acc.2.2 + f.1.cost) f.2

/-- One Monte-Carlo trial: shuffle the destination list, walk it, and apply
the time-constraint penalty `routeScore -= (totalTime - maxTime) * 0.1` when a
truthy budget is exceeded.  Returns the candidate route with its (possibly
penalized) score. -/
noncomputable def runTrial (q : ℕ → ℝ) (startLocation endLocation : String)
    (items : List ScheduleItem) (maxTime : Option ℝ) (pos : ℕ) :
    (List ScheduleItem × ℝ) × ℕ :=
  let sh := randomShuffle q items pos
  let w := walkAux q startLocation endLocation sh.1 (0, 0, 0) sh.2
  let score :=
    match maxTime with
    | none => w.1.1
    | some m => if m ≠ 0 ∧ m < w.1.2.1 then w.1.1 - (w.1.2.1 - m) * 0.1 else w.1.1
  ((sh.1, score), w.2)

/-- The fixed trial count of the Monte-Carlo search (`const iterations = 100`). -/
def iterations : ℕ := 100

/-- The list of all trials, generated sequentially on the shared stream. -/
noncomputable def runTrials (q : ℕ → ℝ) (startLocation endLocation : String)
    (items : List ScheduleItem) (maxTime : Option ℝ) :
    ℕ → ℕ → List (List ScheduleItem × ℝ) × ℕ
  | 0, pos => ([], pos)
  | n + 1, pos =>
    let t := runTrial q startLocation endLocation items maxTime pos
    let rest := runTrials q startLocation endLocation items maxTime n t.2
    (t.1 :: rest.1, rest.2)

/-- The comparison `routeScore > bestScore`, with `none` standing for the initial
`Number.NEGATIVE_INFINITY`. -/
noncomputable def beats (s : ℝ) : Option ℝ → Bool
  | none => true
  | some b => decide (b < s)

/-- The best-so-far fold of the search loop: replace the accumulator exactly
when the trial's score strictly beats the best score seen so far. -/
noncomputable def pickBest {α : Type} :
    List (α × ℝ) → α × Option ℝ → α × Option ℝ
  | [], acc => acc
  | t :: rest, acc =>
    pickBest rest (if beats t.2 acc.2 then (t.1, some t.2) else acc)

/-- The Stochastic Route Search (lines 125–162 of `optimizeRouteRL`): run the
fixed number of trials and keep the best route and score.  The accumulator
starts at `([...scheduleItems], NEGATIVE_INFINITY)`. -/
noncomputable def searchPhase (q : ℕ → ℝ) (startLocation endLocation : String)
    (items : List ScheduleItem) (maxTime : Option ℝ) (pos : ℕ) :
    (List ScheduleItem × Option ℝ) × ℕ :=
  let r := runTrials q startLocation endLocation items maxTime iterations pos
  (pickBest r.1 (items, none), r.2)

/-- Stable insertion step for the pruning sort
`sort((a, b) => b.priority - a.priority)`: walk past elements of strictly
greater priority, so equal priorities keep their relative order. -/
noncomputable def insertD (x : ScheduleItem) :
    List ScheduleItem → List ScheduleItem
  | [] => [x]
  | y :: ys => if x.priority < y.priority then y :: insertD x ys else x :: y :: ys

/-- The stable priority-descending sort used by the Time-Budget Pruner. -/
noncomputable def sortD : List ScheduleItem → List ScheduleItem
  | [] => []
  | x :: xs => insertD x (sortD xs)

/-- The pruning loop (lines 176–188): walk the priority-sorted destinations
from the current location, admit an item when
`currentTime + itemTime <= maxTime * 0.9`, otherwise drop it.  Admitted items
are returned together with their `itemTime` (leg duration plus dwell time, the
quantity the loop accumulates); the second component of the result carries the
final accumulated time and stream position. -/
noncomputable def pruneAux (q : ℕ → ℝ) (loc : String) (m : ℝ) :
    List ScheduleItem → ℝ → ℕ → (List (ScheduleItem × ℝ) × List ScheduleItem) × (ℝ × ℕ)
  | [], t, pos => (([], []), (t, pos))
  | item :: rest, t, pos =>
    let f := generateRouteFactors q loc item.name pos
    let itemTime := f.1.duration + item.dwellTime
    if t + itemTime ≤ m * 0.9 then
      let r := pruneAux q item.name m rest (t + itemTime) f.2
      (((item, itemTime) :: r.1.1, r.1.2), r.2)
    else
      let r := pruneAux q loc m rest t f.2
      ((r.1.1, item :: r.1.2), r.2)

/-- The pruning stage of the engine (lines 164–191): applied only when
`maxTime` is truthy (supplied and nonzero); otherwise the searched route is
kept whole and nothing is dropped. -/
noncomputable def pruneStage (q : ℕ → ℝ) (startLocation : String)
    (maxTime : Option ℝ) (best : List ScheduleItem) (pos : ℕ) :
    (List ScheduleItem × List ScheduleItem) × ℕ :=
  match maxTime with
  | none => ((best, []), pos)
  | some m =>
    if m = 0 then ((best, []), pos)
    else
      let r := pruneAux q startLocation m (sortD best) 0 pos
      ((r.1.1.map Prod.fst, r.1.2), r.2.2)

/-- Stable insertion step for the alternate plan comparator
`a.type === b.type ? b.priority - a.priority : a.type.localeCompare(b.type)`:
walk past elements that strictly precede `x` (earlier type, or same type and
strictly greater priority).  String collation models `localeCompare`. -/
noncomputable def insertAlt (x : ScheduleItem) :
    List ScheduleItem → List ScheduleItem
  | [] => [x]
  | y :: ys =>
    if y.type < x.type ∨ (y.type = x.type ∧ x.priority < y.priority) then
      y :: insertAlt x ys
    else x :: y :: ys

/-- The Alternate Plan Generator's stable sort (type ascending, then priority
descending within a type). -/
noncomputable def altSort : List ScheduleItem → List ScheduleItem
  | [] => []
  | x :: xs => insertAlt x (altSort xs)

/-- The alternate plan `const alternativeRoute = [...scheduleItems].sort(...)` (lines 194–200). -/
noncomputable def alternativeRoute (items : List ScheduleItem) : List ScheduleItem :=
  altSort items

/-- The distance aggregator (`function calculateTotalDistance`): pure leg-distance aggregation,
including the closing leg to the end location. -/
noncomputable def calculateTotalDistance (loc endLocation : String) :
    List ScheduleItem → ℝ
  | [] => calculateDistance loc endLocation
  | item :: rest =>
    calculateDistance loc item.name + calculateTotalDistance item.name endLocation rest

/-- The accumulating loop of `calculateTotalTime`. -/
noncomputable def totalTimeAux (q : ℕ → ℝ) (loc endLocation : String) :
    List ScheduleItem → ℝ → ℕ → ℝ × ℕ
  | [], acc, pos =>
    let f := generateRouteFactors q loc endLocation pos
    (acc + f.1.duration, f.2)
  | item :: rest, acc, pos =>
    let f := generateRouteFactors q loc item.name pos
    totalTimeAux q item.name endLocation rest (acc + f.1.duration + item.dwellTime) f.2

/-- The time aggregator (`function calculateTotalTime`): sums leg duration plus dwell for each leg
and the closing leg's duration; draws fresh travel factors from the stream. -/
noncomputable def calculateTotalTime (q : ℕ → ℝ) (startLocation endLocation : String)
    (route : List ScheduleItem) (pos : ℕ) : ℝ × ℕ :=
  totalTimeAux q startLocation endLocation route 0 pos

/-- The best route found by the search. -/
noncomputable def searchedRoute (q : ℕ → ℝ) (startLocation endLocation : String)
    (items : List ScheduleItem) (maxTime : Option ℝ) (pos : ℕ) : List ScheduleItem :=
  (searchPhase q startLocation endLocation items maxTime pos).1.1

/-- The optimized route: the searched route after the pruning stage. -/
noncomputable def optimizedRouteOf (q : ℕ → ℝ) (startLocation endLocation : String)
    (items : List ScheduleItem) (maxTime : Option ℝ) (pos : ℕ) : List ScheduleItem :=
  (pruneStage q startLocation maxTime
    (searchedRoute q startLocation endLocation items maxTime pos)
    (searchPhase q startLocation endLocation items maxTime pos).2).1.1

/-- The dropped destinations produced by the pruning stage. -/
noncomputable def droppedOf (q : ℕ → ℝ) (startLocation endLocation : String)
    (items : List ScheduleItem) (maxTime : Option ℝ) (pos : ℕ) : List ScheduleItem :=
  (pruneStage q startLocation maxTime
    (searchedRoute q startLocation endLocation items maxTime pos)
    (searchPhase q startLocation endLocation items maxTime pos).2).1.2

/-- The stream position after the pruning stage (where the metrics block
starts drawing). -/
noncomputable def posAfterPrune (q : ℕ → ℝ) (startLocation endLocation : String)
    (items : List ScheduleItem) (maxTime : Option ℝ) (pos : ℕ) : ℕ :=
  (pruneStage q startLocation maxTime
    (searchedRoute q startLocation endLocation items maxTime pos)
    (searchPhase q startLocation endLocation items maxTime pos).2).2

/-- The engine's `const originalTime = calculateTotalTime(...)` (line 205). -/
noncomputable def originalTime (q : ℕ → ℝ) (startLocation endLocation : String)
    (items : List ScheduleItem) (maxTime : Option ℝ) (pos : ℕ) : ℝ :=
  (calculateTotalTime q startLocation endLocation items
    (posAfterPrune q startLocation endLocation items maxTime pos)).1

/-- The engine's `const optimizedTime = calculateTotalTime(...)` (line 206), drawn after the
original-time aggregation on the shared stream. -/
noncomputable def optimizedTime (q : ℕ → ℝ) (startLocation endLocation : String)
    (items : List ScheduleItem) (maxTime : Option ℝ) (pos : ℕ) : ℝ :=
  (calculateTotalTime q startLocation endLocation
    (optimizedRouteOf q startLocation endLocation items maxTime pos)
    (calculateTotalTime q startLocation endLocation items
      (posAfterPrune q startLocation endLocation items maxTime pos)).2).1

/-- The local optimization engine (`function optimizeRouteRL`): stochastic
search, optional pruning, alternate plan, and the metrics block. -/
noncomputable def optimizeRouteRL (q : ℕ → ℝ) (startLocation endLocation : String)
    (scheduleItems : List ScheduleItem) (maxTime : Option ℝ) (pos : ℕ) :
    OptimizationResult :=
  { originalRoute := scheduleItems
    optimizedRoute := optimizedRouteOf q startLocation endLocation scheduleItems maxTime pos
    userPlan := scheduleItems
    alternativePlan :=
      if (alternativeRoute scheduleItems).length =
          (optimizedRouteOf q startLocation endLocation scheduleItems maxTime pos).length
      then none
      else some (alternativeRoute scheduleItems)
    metrics :=
      { totalDistance := calculateTotalDistance startLocation endLocation
          (optimizedRouteOf q startLocation endLocation scheduleItems maxTime pos)
        totalTime := optimizedTime q startLocation endLocation scheduleItems maxTime pos
        timeSaved := max 0
          (originalTime q startLocation endLocation scheduleItems maxTime pos -
           optimizedTime q startLocation endLocation scheduleItems maxTime pos)
        costSaved := max 0
          ((calculateTotalDistance startLocation endLocation scheduleItems -
            calculateTotalDistance startLocation endLocation
              (optimizedRouteOf q startLocation endLocation scheduleItems maxTime pos)) * 15)
        droppedPOIs := droppedOf q startLocation endLocation scheduleItems maxTime pos } }

/-- The stream that returns its position, used to exhibit the advancing global
random state. -/
noncomputable def natStream : ℕ → ℝ := fun n => (n : ℝ)

/-- The constant-one stream. -/
noncomputable def oneStream : ℕ → ℝ := fun _ => 1

/-- The trial score of the search on an empty destination list over
`natStream` with budget `5`, as a function of the stream position. -/
noncomputable def cScore (p : ℕ) : ℝ :=
  if (5 : ℝ) < (p : ℝ) * 10 then 0 - ((p : ℝ) * 10 - 5) * 0.1 else 0

/-! ### Helper lemmas about the distance estimator -/

theorem resolveCoord_of_none {p : String} (h : mockCoordinates p = none) :
    resolveCoord p = fallbackCoord := by
  simp [resolveCoord, h]

theorem resolveCoord_home : resolveCoord "Home" = fallbackCoord := by
  simp [resolveCoord, mockCoordinates, fallbackCoord]

theorem atan2_zero_one : atan2 0 1 = 0 := by
  simp [atan2]

theorem calculateDistance_zero_of_resolve_eq {p1 p2 : String}
    (h : resolveCoord p1 = resolveCoord p2) : calculateDistance p1 p2 = 0 := by
  simp only [calculateDistance, h, sub_self, zero_mul, zero_div, Real.sin_zero,
    mul_zero, zero_add, add_zero, Real.sqrt_zero, sub_zero, Real.sqrt_one,
    atan2_zero_one]

theorem mockCoordinates_S : mockCoordinates "S" = none := by
  simp [mockCoordinates]

theorem mockCoordinates_E : mockCoordinates "E" = none := by
  simp [mockCoordinates]

theorem mockCoordinates_A : mockCoordinates "A" = none := by
  simp [mockCoordinates]

theorem dist_SE : calculateDistance "S" "E" = 0 :=
  calculateDistance_zero_of_resolve_eq
    ((resolveCoord_of_none mockCoordinates_S).trans
      (resolveCoord_of_none mockCoordinates_E).symm)

theorem dist_SA : calculateDistance "S" "A" = 0 :=
  calculateDistance_zero_of_resolve_eq
    ((resolveCoord_of_none mockCoordinates_S).trans
      (resolveCoord_of_none mockCoordinates_A).symm)

/-! ### Permutation lemmas for the shuffles and sorts -/

theorem randInsert_perm (q : ℕ → ℝ) (x : ScheduleItem) :
    ∀ (l : List ScheduleItem) (pos : ℕ), (randInsert q x l pos).1.Perm (x :: l) := by
  intro l
  induction l with
  | nil => intro pos; simp [randInsert]
  | cons y ys ih =>
    intro pos
    simp only [randInsert]
    by_cases h : q pos < 0.5
    · simp [h]
    · simp only [h, if_neg, ite_false]
      exact (List.Perm.cons y (ih (pos + 1))).trans (List.Perm.swap x y ys)

theorem randomShuffle_perm (q : ℕ → ℝ) :
    ∀ (l : List ScheduleItem) (pos : ℕ), (randomShuffle q l pos).1.Perm l := by
  intro l
  induction l with
  | nil => intro pos; simp [randomShuffle]
  | cons x xs ih =>
    intro pos
    simp only [randomShuffle]
    exact (randInsert_perm q x _ _).trans (List.Perm.cons x (ih pos))

theorem insertD_perm (x : ScheduleItem) :
    ∀ l : List ScheduleItem, (insertD x l).Perm (x :: l) := by
  intro l
  induction l with
  | nil => simp [insertD]
  | cons y ys ih =>
    simp only [insertD]
    by_cases h : x.priority < y.priority
    · simp only [h, if_true, ite_true]
      exact (List.Perm.cons y ih).trans (List.Perm.swap x y ys)
    · simp [h]

theorem sortD_perm : ∀ l : List ScheduleItem, (sortD l).Perm l := by
  intro l
  induction l with
  | nil => simp [sortD]
  | cons x xs ih =>
    simp only [sortD]
    exact (insertD_perm x _).trans (List.Perm.cons x ih)

theorem insertAlt_perm (x : ScheduleItem) :
    ∀ l : List ScheduleItem, (insertAlt x l).Perm (x :: l) := by
  intro l
  induction l with
  | nil => simp [insertAlt]
  | cons y ys ih =>
    simp only [insertAlt]
    by_cases h : y.type < x.type ∨ (y.type = x.type ∧ x.priority < y.priority)
    · rw [if_pos h]
      exact (List.Perm.cons y ih).trans (List.Perm.swap x y ys)
    · rw [if_neg h]

theorem altSort_perm : ∀ l : List ScheduleItem, (altSort l).Perm l := by
  intro l
  induction l with
  | nil => simp [altSort]
  | cons x xs ih =>
    simp only [altSort]
    exact (insertAlt_perm x _).trans (List.Perm.cons x ih)

theorem alternativeRoute_perm (items : List ScheduleItem) :
    (alternativeRoute items).Perm items :=
  altSort_perm items

/-! ### The sortedness and stability of the pruning sort -/

theorem insertD_pairwise {x : ScheduleItem} :
    ∀ {l : List ScheduleItem},
      l.Pairwise (fun a b => b.priority ≤ a.priority) →
      (insertD x l).Pairwise (fun a b => b.priority ≤ a.priority) := by
  intro l
  induction l with
  | nil => intro _; simp [insertD]
  | cons y ys ih =>
    intro h
    rcases List.pairwise_cons.1 h with ⟨hy, hys⟩
    simp only [insertD]
    by_cases hcmp : x.priority < y.priority
    · simp only [hcmp, if_true, ite_true]
      refine List.pairwise_cons.2 ⟨?_, ih hys⟩
      intro z hz
      rcases List.mem_cons.1 ((insertD_perm x ys).mem_iff.1 hz) with hz | hz
      · exact hz ▸ le_of_lt hcmp
      · exact hy z hz
    · simp only [hcmp, if_neg, ite_false]
      refine List.pairwise_cons.2 ⟨?_, h⟩
      intro z hz
      rcases List.mem_cons.1 hz with hz | hz
      · exact hz ▸ not_lt.1 hcmp
      · exact le_trans (hy z hz) (not_lt.1 hcmp)

theorem sortD_pairwise :
    ∀ l : List ScheduleItem,
      (sortD l).Pairwise (fun a b => b.priority ≤ a.priority) := by
  intro l
  induction l with
  | nil => simp [sortD]
  | cons x xs ih => exact insertD_pairwise ih

theorem insertD_filter (x : ScheduleItem) (p : ℝ) :
    ∀ l : List ScheduleItem,
      (insertD x l).filter (fun a => decide (a.priority = p)) =
        (x :: l).filter (fun a => decide (a.priority = p)) := by
  intro l
  induction l with
  | nil => simp [insertD]
  | cons y ys ih =>
    simp only [insertD]
    by_cases hcmp : x.priority < y.priority
    · simp only [hcmp, if_true, ite_true]
      by_cases hy : y.priority = p
      · have hx : ¬ x.priority = p := by
          intro hx; exact absurd (hx.trans hy.symm ▸ hcmp) (lt_irrefl _)
        simp [List.filter, hy, hx, ih]
      · by_cases hx : x.priority = p <;> simp [List.filter, hy, hx, ih]
    · simp [hcmp]

theorem sortD_filter (p : ℝ) :
    ∀ l : List ScheduleItem,
      (sortD l).filter (fun a => decide (a.priority = p)) =
        l.filter (fun a => decide (a.priority = p)) := by
  intro l
  induction l with
  | nil => simp [sortD]
  | cons x xs ih =>
    simp only [sortD, insertD_filter]
    by_cases hx : x.priority = p <;> simp [List.filter, hx, ih]

/-! ### The best-so-far fold keeps the first maximum -/

theorem pickBest_stay {α : Type} :
    ∀ (ts : List (α × ℝ)) (b : α) (s : ℝ),
      (∀ t ∈ ts, t.2 ≤ s) → pickBest ts (b, some s) = (b, some s) := by
  intro ts
  induction ts with
  | nil => intro b s _; rfl
  | cons t rest ih =>
    intro b s h
    have ht : ¬ s < t.2 := not_lt.2 (h t (List.mem_cons_self t rest))
    have hb : beats t.2 (some s) = false := by simp [beats, ht]
    simp only [pickBest, hb, Bool.false_eq_true, ite_false, if_neg]
    exact ih b s fun u hu => h u (List.mem_cons_of_mem t hu)

theorem pickBest_some_spec {α : Type} :
    ∀ (ts : List (α × ℝ)) (b : α) (s : ℝ),
      (pickBest ts (b, some s) = (b, some s) ∧ ∀ t ∈ ts, t.2 ≤ s) ∨
      (∃ pre c post, ts = pre ++ c :: post ∧
        pickBest ts (b, some s) = (c.1, some c.2) ∧ s < c.2 ∧
        (∀ t ∈ pre, t.2 < c.2) ∧ (∀ t ∈ post, t.2 ≤ c.2)) := by
  intro ts
  induction ts with
  | nil => intro b s; exact Or.inl ⟨rfl, by simp⟩
  | cons t rest ih =>
    intro b s
    by_cases ht : s < t.2
    · have hstep : pickBest (t :: rest) (b, some s) = pickBest rest (t.1, some t.2) := by
        simp [pickBest, beats, ht]
      rcases ih t.1 t.2 with ⟨hres, hall⟩ | ⟨pre, c, post, hts, hres, hlt, hpre, hpost⟩
      · refine Or.inr ⟨[], t, rest, by simp, ?_, ht, by simp, hall⟩
        rw [hstep, hres]
      · refine Or.inr ⟨t :: pre, c, post, by rw [hts]; rfl, ?_, lt_trans ht hlt, ?_, hpost⟩
        · rw [hstep, hres]
        · intro u hu
          rcases List.mem_cons.1 hu with hu | hu
          · exact hu ▸ hlt
          · exact hpre u hu
    · have hstep : pickBest (t :: rest) (b, some s) = pickBest rest (b, some s) := by
        simp [pickBest, beats, ht]
      rcases ih b s with ⟨hres, hall⟩ | ⟨pre, c, post, hts, hres, hlt, hpre, hpost⟩
      · refine Or.inl ⟨by rw [hstep, hres], ?_⟩
        intro u hu
        rcases List.mem_cons.1 hu with hu | hu
        · exact hu ▸ not_lt.1 ht
        · exact hall u hu
      · refine Or.inr ⟨t :: pre, c, post, by rw [hts]; rfl, ?_, hlt, ?_, hpost⟩
        · rw [hstep, hres]
        · intro u hu
          rcases List.mem_cons.1 hu with hu | hu
          · exact hu ▸ lt_of_le_of_lt (not_lt.1 ht) hlt
          · exact hpre u hu

theorem pickBest_none_spec {α : Type} (ts : List (α × ℝ)) (b : α)
    (hne : ts ≠ []) :
    ∃ pre c post, ts = pre ++ c :: post ∧
      pickBest ts (b, none) = (c.1, some c.2) ∧
      (∀ t ∈ pre, t.2 < c.2) ∧ (∀ t ∈ post, t.2 ≤ c.2) := by
  match ts, hne with
  | t :: rest, _ =>
    have hstep : pickBest (t :: rest) (b, none) = pickBest rest (t.1, some t.2) := by
      simp [pickBest, beats]
    rcases pickBest_some_spec rest t.1 t.2 with ⟨hres, hall⟩ |
      ⟨pre, c, post, hts, hres, hlt, hpre, hpost⟩
    · exact ⟨[], t, rest, by simp, by rw [hstep, hres], by simp, hall⟩
    · refine ⟨t :: pre, c, post, by rw [hts]; rfl, by rw [hstep, hres], ?_, hpost⟩
      intro u hu
      rcases List.mem_cons.1 hu with hu | hu
      · exact hu ▸ hlt
      · exact hpre u hu

/-! ### Trial bookkeeping -/

theorem runTrials_length (q : ℕ → ℝ) (startLocation endLocation : String)
    (items : List ScheduleItem) (maxTime : Option ℝ) :
    ∀ (n pos : ℕ),
      (runTrials q startLocation endLocation items maxTime n pos).1.length = n := by
  intro n
  induction n with
  | zero => intro pos; rfl
  | succ k ih =>
    intro pos
    simp only [runTrials, List.length_cons, ih]

theorem runTrial_route_perm (q : ℕ → ℝ) (startLocation endLocation : String)
    (items : List ScheduleItem) (maxTime : Option ℝ) (pos : ℕ) :
    (runTrial q startLocation endLocation items maxTime pos).1.1.Perm items := by
  simp only [runTrial]
  exact randomShuffle_perm q items pos

theorem runTrials_route_perm (q : ℕ → ℝ) (startLocation endLocation : String)
    (items : List ScheduleItem) (maxTime : Option ℝ) :
    ∀ (n pos : ℕ) (t : List ScheduleItem × ℝ),
      t ∈ (runTrials q startLocation endLocation items maxTime n pos).1 →
      t.1.Perm items := by
  intro n
  induction n with
  | zero => intro pos t ht; simp [runTrials] at ht
  | succ k ih =>
    intro pos t ht
    simp only [runTrials, List.mem_cons] at ht
    rcases ht with ht | ht
    · exact ht ▸ runTrial_route_perm q startLocation endLocation items maxTime pos
    · exact ih _ t ht

theorem searchedRoute_perm (q : ℕ → ℝ) (startLocation endLocation : String)
    (items : List ScheduleItem) (maxTime : Option ℝ) (pos : ℕ) :
    (searchedRoute q startLocation endLocation items maxTime pos).Perm items := by
  have hlen := runTrials_length q startLocation endLocation items maxTime iterations pos
  have hne : (runTrials q startLocation endLocation items maxTime iterations pos).1 ≠ [] := by
    intro h
    rw [h] at hlen
    simp [iterations] at hlen
  rcases pickBest_none_spec _ items hne with ⟨pre, c, post, hts, hres, _, _⟩
  have hc : c ∈ (runTrials q startLocation endLocation items maxTime iterations pos).1 := by
    rw [hts]
    exact List.mem_append_right pre (List.mem_cons_self c post)
  have := runTrials_route_perm q startLocation endLocation items maxTime iterations pos c hc
  simp only [searchedRoute, searchPhase]
  rw [hres]
  exact this

/-! ### Pruner lemmas -/

theorem generateRouteFactors_duration (q : ℕ → ℝ) (a b : String) (pos : ℕ) :
    (generateRouteFactors q a b pos).1.duration = calculateDistance a b * 3 + q pos * 10 :=
  rfl

theorem generateRouteFactors_snd (q : ℕ → ℝ) (a b : String) (pos : ℕ) :
    (generateRouteFactors q a b pos).2 = pos + 10 :=
  rfl

theorem generateRouteFactors_congr {q1 q2 : ℕ → ℝ} (a b : String) (pos : ℕ)
    (h : ∀ i < 10, q1 (pos + i) = q2 (pos + i)) :
    generateRouteFactors q1 a b pos = generateRouteFactors q2 a b pos := by
  have h0 : q1 pos = q2 pos := by simpa using h 0 (by norm_num)
  have h1 := h 1 (by norm_num)
  have h2 := h 2 (by norm_num)
  have h3 := h 3 (by norm_num)
  have h4 := h 4 (by norm_num)
  have h5 := h 5 (by norm_num)
  have h6 := h 6 (by norm_num)
  have h7 := h 7 (by norm_num)
  have h8 := h 8 (by norm_num)
  have h9 := h 9 (by norm_num)
  simp only [generateRouteFactors, h0, h1, h2, h3, h4, h5, h6, h7, h8, h9]

theorem totalTimeAux_congr {q1 q2 : ℕ → ℝ} (endLocation : String) :
    ∀ (route : List ScheduleItem) (loc : String) (acc : ℝ) (pos : ℕ),
      (∀ i < 10 * (route.length + 1), q1 (pos + i) = q2 (pos + i)) →
      totalTimeAux q1 loc endLocation route acc pos =
        totalTimeAux q2 loc endLocation route acc pos := by
  intro route
  induction route with
  | nil =>
    intro loc acc pos h
    simp only [totalTimeAux]
    rw [generateRouteFactors_congr loc endLocation pos
      (fun i hi => h i (by simpa using by omega))]
  | cons item rest ih =>
    intro loc acc pos h
    simp only [totalTimeAux]
    have hlen : (item :: rest).length + 1 = rest.length + 2 := by simp
    rw [generateRouteFactors_congr loc item.name pos
      (fun i hi => h i (by rw [hlen]; omega))]
    rw [generateRouteFactors_snd]
    refine ih item.name _ (pos + 10) ?_
    intro i hi
    have := h (10 + i) (by rw [hlen]; omega)
    rwa [← add_assoc] at this

theorem pruneAux_partition (q : ℕ → ℝ) (m : ℝ) :
    ∀ (l : List ScheduleItem) (loc : String) (t : ℝ) (pos : ℕ),
      (((pruneAux q loc m l t pos).1.1.map Prod.fst) ++
        (pruneAux q loc m l t pos).1.2).Perm l := by
  intro l
  induction l with
  | nil => intro loc t pos; simp [pruneAux]
  | cons item rest ih =>
    intro loc t pos
    simp only [pruneAux]
    by_cases h : t + ((generateRouteFactors q loc item.name pos).1.duration +
        item.dwellTime) ≤ m * 0.9
    · rw [if_pos h]
      simp only [List.map_cons, List.cons_append]
      exact List.Perm.cons item (ih item.name _ _)
    · rw [if_neg h]
      exact List.perm_middle.trans (List.Perm.cons item (ih loc t _))

theorem pruneAux_valid_sublist (q : ℕ → ℝ) (m : ℝ) :
    ∀ (l : List ScheduleItem) (loc : String) (t : ℝ) (pos : ℕ),
      ((pruneAux q loc m l t pos).1.1.map Prod.fst).Sublist l := by
  intro l
  induction l with
  | nil => intro loc t pos; simp [pruneAux]
  | cons item rest ih =>
    intro loc t pos
    simp only [pruneAux]
    by_cases h : t + ((generateRouteFactors q loc item.name pos).1.duration +
        item.dwellTime) ≤ m * 0.9
    · rw [if_pos h]
      simp only [List.map_cons]
      exact List.Sublist.cons₂ item (ih item.name _ _)
    · rw [if_neg h]
      exact List.Sublist.cons item (ih loc t _)

theorem pruneAux_dropped_sublist (q : ℕ → ℝ) (m : ℝ) :
    ∀ (l : List ScheduleItem) (loc : String) (t : ℝ) (pos : ℕ),
      ((pruneAux q loc m l t pos).1.2).Sublist l := by
  intro l
  induction l with
  | nil => intro loc t pos; simp [pruneAux]
  | cons item rest ih =>
    intro loc t pos
    simp only [pruneAux]
    by_cases h : t + ((generateRouteFactors q loc item.name pos).1.duration +
        item.dwellTime) ≤ m * 0.9
    · rw [if_pos h]
      exact List.Sublist.cons item (ih item.name _ _)
    · rw [if_neg h]
      exact List.Sublist.cons₂ item (ih loc t _)

theorem pruneAux_take_sum_le (q : ℕ → ℝ) (m : ℝ) :
    ∀ (l : List ScheduleItem) (loc : String) (t : ℝ) (pos : ℕ),
      t ≤ m * 0.9 →
      ∀ k : ℕ,
        t + (((pruneAux q loc m l t pos).1.1.map Prod.snd).take k).sum ≤ m * 0.9 := by
  intro l
  induction l with
  | nil =>
    intro loc t pos ht k
    simp only [pruneAux, List.map_nil, List.take_nil, List.sum_nil, add_zero]
    exact ht
  | cons item rest ih =>
    intro loc t pos ht k
    simp only [pruneAux]
    by_cases h : t + ((generateRouteFactors q loc item.name pos).1.duration +
        item.dwellTime) ≤ m * 0.9
    · rw [if_pos h]
      match k with
      | 0 => simpa using ht
      | k + 1 =>
        simp only [List.map_cons, List.take_succ_cons, List.sum_cons]
        have := ih item.name _ (generateRouteFactors q loc item.name pos).2 h k
        linarith
    · rw [if_neg h]
      exact ih loc t _ ht k

theorem pruneAux_all_drop (q : ℕ → ℝ) (m : ℝ) (loc : String) :
    ∀ (l : List ScheduleItem) (pos : ℕ),
      (∀ item ∈ l, ∀ i : ℕ,
        m * 0.9 < calculateDistance loc item.name * 3 + q i * 10 + item.dwellTime) →
      (pruneAux q loc m l 0 pos).1.1 = [] ∧ (pruneAux q loc m l 0 pos).1.2 = l := by
  intro l
  induction l with
  | nil => intro pos _; exact ⟨rfl, rfl⟩
  | cons item rest ih =>
    intro pos hall
    have hitem := hall item (List.mem_cons_self item rest) pos
    have h : ¬ (0 : ℝ) + ((generateRouteFactors q loc item.name pos).1.duration +
        item.dwellTime) ≤ m * 0.9 := by
      rw [generateRouteFactors_duration]
      intro hle
      linarith
    simp only [pruneAux]
    rw [if_neg h]
    have := ih (generateRouteFactors q loc item.name pos).2
      fun u hu i => hall u (List.mem_cons_of_mem item hu) i
    exact ⟨this.1, by rw [this.2]⟩

/-! ### Claim theorems -/

/-- C1: for every start location, end location, destination list, optional
time budget and stream state, the Optimization Result of `optimizeRouteRL`
satisfies `timeSaved = max 0 (originalTotalTime - optimizedTotalTime)` — where
the two totals are exactly the Metrics Aggregator's sequential computations on
the original and optimized routes — and both `timeSaved` and `costSaved` are
nonnegative. -/
theorem c1_metrics_invariant (q : ℕ → ℝ) (startLocation endLocation : String)
    (items : List ScheduleItem) (maxTime : Option ℝ) (pos : ℕ) :
    (optimizeRouteRL q startLocation endLocation items maxTime pos).metrics.timeSaved =
      max 0 (originalTime q startLocation endLocation items maxTime pos -
        optimizedTime q startLocation endLocation items maxTime pos) ∧
    originalTime q startLocation endLocation items maxTime pos =
      (calculateTotalTime q startLocation endLocation
        (optimizeRouteRL q startLocation endLocation items maxTime pos).originalRoute
        (posAfterPrune q startLocation endLocation items maxTime pos)).1 ∧
    (optimizeRouteRL q startLocation endLocation items maxTime pos).metrics.totalTime =
      optimizedTime q startLocation endLocation items maxTime pos ∧
    0 ≤ (optimizeRouteRL q startLocation endLocation items maxTime pos).metrics.timeSaved ∧
    0 ≤ (optimizeRouteRL q startLocation endLocation items maxTime pos).metrics.costSaved :=
  ⟨rfl, rfl, rfl, le_max_left 0 _, le_max_left 0 _⟩

/-- C2: whenever a time budget is supplied, the optimized route together with
the dropped list is a permutation of the input destination list — every input
destination appears in exactly one of the two lists, with multiplicity. -/
theorem c2_partition (q : ℕ → ℝ) (startLocation endLocation : String)
    (items : List ScheduleItem) (m : ℝ) (pos : ℕ) :
    ((optimizeRouteRL q startLocation endLocation items (some m) pos).optimizedRoute ++
      (optimizeRouteRL q startLocation endLocation items (some m) pos).metrics.droppedPOIs).Perm
      items := by
  show (optimizedRouteOf q startLocation endLocation items (some m) pos ++
    droppedOf q startLocation endLocation items (some m) pos).Perm items
  simp only [optimizedRouteOf, droppedOf, pruneStage]
  by_cases hm : m = 0
  · rw [if_pos hm]
    simpa using searchedRoute_perm q startLocation endLocation items (some m) pos
  · rw [if_neg hm]
    dsimp only
    exact ((pruneAux_partition q m _ _ _ _).trans (sortD_perm _)).trans
      (searchedRoute_perm q startLocation endLocation items (some m) pos)

/-- C3: the Time-Budget Pruner processes the candidate route re-sorted by
priority descending with ties kept in the candidate's relative order (the sort
is a permutation, is pairwise descending, and is stable), admitted and dropped
destinations are subsequences of that sorted walk (encounter order), together
they partition the candidate exactly, and every prefix of the admitted
leg-duration-plus-dwell times — in particular their full sum — stays within
`0.9 × budget`. -/
theorem c3_pruner (q : ℕ → ℝ) (startLocation : String) (route : List ScheduleItem)
    (m : ℝ) (pos : ℕ) (hm : 0 ≤ m) :
    (sortD route).Perm route ∧
    (sortD route).Pairwise (fun a b => b.priority ≤ a.priority) ∧
    (∀ p : ℝ, (sortD route).filter (fun a => decide (a.priority = p)) =
      route.filter (fun a => decide (a.priority = p))) ∧
    (∀ k : ℕ,
      (((pruneAux q startLocation m (sortD route) 0 pos).1.1.map Prod.snd).take k).sum ≤
        0.9 * m) ∧
    ((pruneAux q startLocation m (sortD route) 0 pos).1.1.map Prod.fst).Sublist
      (sortD route) ∧
    ((pruneAux q startLocation m (sortD route) 0 pos).1.2).Sublist (sortD route) ∧
    (((pruneAux q startLocation m (sortD route) 0 pos).1.1.map Prod.fst) ++
      (pruneAux q startLocation m (sortD route) 0 pos).1.2).Perm route := by
  refine ⟨sortD_perm route, sortD_pairwise route, fun p => sortD_filter p route, ?_,
    pruneAux_valid_sublist q m _ _ _ _, pruneAux_dropped_sublist q m _ _ _ _,
    (pruneAux_partition q m _ _ _ _).trans (sortD_perm route)⟩
  intro k
  have h0 : (0 : ℝ) ≤ m * 0.9 := by nlinarith
  have := pruneAux_take_sum_le q m (sortD route) startLocation 0 pos h0 k
  linarith

/-- Witness for C3 at a concrete input (`route = []`, budget `1`). -/
theorem c3_pruner_witness :
    (0 : ℝ) ≤ 1 ∧
    ((sortD []).Perm [] ∧
    (sortD []).Pairwise (fun a b => b.priority ≤ a.priority) ∧
    (∀ p : ℝ, (sortD []).filter (fun a => decide (a.priority = p)) =
      List.filter (fun a => decide (a.priority = p)) []) ∧
    (∀ k : ℕ,
      (((pruneAux natStream "S" 1 (sortD []) 0 0).1.1.map Prod.snd).take k).sum ≤
        0.9 * 1) ∧
    ((pruneAux natStream "S" 1 (sortD []) 0 0).1.1.map Prod.fst).Sublist (sortD []) ∧
    ((pruneAux natStream "S" 1 (sortD []) 0 0).1.2).Sublist (sortD []) ∧
    (((pruneAux natStream "S" 1 (sortD []) 0 0).1.1.map Prod.fst) ++
      (pruneAux natStream "S" 1 (sortD []) 0 0).1.2).Perm []) :=
  ⟨by norm_num, c3_pruner natStream "S" [] 1 0 (by norm_num)⟩

/-- C5: the Desirability Scorer computes exactly the documented weighted
combination; it is a pure function of the Travel Factors record and the
priority, hence deterministic by construction. -/
theorem c5_dsr_formula (factors : RouteFactors) (priority : ℝ) :
    calculateDSRScore factors priority =
      0.7 * (0.3 * (1 - 0.4 * min (factors.distance / 10) 1 -
                    0.3 * min (factors.walkingDistance / 2) 1 -
                    0.3 * min (factors.trafficLights / 10) 1) +
             0.3 * (0.6 * RouteFactors.expediteRatio factors +
                    0.4 * (1 - RouteFactors.congestionRatio factors)) +
             0.4 * (0.7 * min (factors.rating / 5) 1 +
                    0.3 * min (factors.dailySales / 1000) 1)) +
      0.3 * (priority / 5) := by
  simp only [calculateDSRScore]
  ring

/-- C6: the Optimization Result carries an `alternativePlan` exactly when the
alternate route's length differs from the optimized route's length (the
engine's redundancy test); whenever the plan is present it differs from the
optimized sequence, and when it is judged redundant it is omitted entirely. -/
theorem c6_alternative_plan (q : ℕ → ℝ) (startLocation endLocation : String)
    (items : List ScheduleItem) (maxTime : Option ℝ) (pos : ℕ) :
    ((alternativeRoute items).length =
        (optimizeRouteRL q startLocation endLocation items maxTime pos).optimizedRoute.length ∧
      (optimizeRouteRL q startLocation endLocation items maxTime pos).alternativePlan = none) ∨
    ((alternativeRoute items).length ≠
        (optimizeRouteRL q startLocation endLocation items maxTime pos).optimizedRoute.length ∧
      (optimizeRouteRL q startLocation endLocation items maxTime pos).alternativePlan =
        some (alternativeRoute items) ∧
      alternativeRoute items ≠
        (optimizeRouteRL q startLocation endLocation items maxTime pos).optimizedRoute) := by
  by_cases h : (alternativeRoute items).length =
      (optimizedRouteOf q startLocation endLocation items maxTime pos).length
  · left
    exact ⟨h, by simp only [optimizeRouteRL]; rw [if_pos h]⟩
  · right
    refine ⟨h, by simp only [optimizeRouteRL]; rw [if_neg h], ?_⟩
    intro heq
    exact h (congrArg List.length heq)

/-- C10: unknown location names resolve to the fixed fallback coordinate,
which is the coordinate of "Home"; `calculateDistance` is total by
construction and returns 0 for two unknown names and for an unknown name
paired with "Home" (either side). -/
theorem c10_fallback (p1 p2 : String) (h1 : mockCoordinates p1 = none)
    (h2 : mockCoordinates p2 = none) :
    resolveCoord p1 = fallbackCoord ∧
    mockCoordinates "Home" = some fallbackCoord ∧
    calculateDistance p1 p2 = 0 ∧
    calculateDistance p1 "Home" = 0 ∧
    calculateDistance "Home" p2 = 0 := by
  have e1 := resolveCoord_of_none h1
  have e2 := resolveCoord_of_none h2
  exact ⟨e1, by simp [mockCoordinates, fallbackCoord],
    calculateDistance_zero_of_resolve_eq (e1.trans e2.symm),
    calculateDistance_zero_of_resolve_eq (e1.trans resolveCoord_home.symm),
    calculateDistance_zero_of_resolve_eq (resolveCoord_home.trans e2.symm)⟩

/-- C4 (amended): the Stochastic Route Search generates exactly
`iterations = 100` trials and returns the first trial attaining the maximum
(possibly penalized) score — earlier trials score strictly less, later ones at
most as much; and a trial's recorded score equals its raw walk score minus
`0.1 × max 0 (totalTime - budget)` whenever the supplied budget is nonzero,
while a zero budget — falsy in the source — disables the penalty. -/
theorem c4_search (q : ℕ → ℝ) (startLocation endLocation : String)
    (items : List ScheduleItem) (maxTime : Option ℝ) (pos : ℕ) (m : ℝ) (p2 : ℕ) :
    (runTrials q startLocation endLocation items maxTime iterations pos).1.length = 100 ∧
    (∃ pre c post,
      (runTrials q startLocation endLocation items maxTime iterations pos).1 =
        pre ++ c :: post ∧
      (searchPhase q startLocation endLocation items maxTime pos).1 = (c.1, some c.2) ∧
      (∀ t ∈ pre, t.2 < c.2) ∧ (∀ t ∈ post, t.2 ≤ c.2)) ∧
    (runTrial q startLocation endLocation items (some m) p2).1.2 =
      (walkAux q startLocation endLocation
        (randomShuffle q items p2).1 (0, 0, 0) (randomShuffle q items p2).2).1.1 -
      (if m = 0 then 0
       else 0.1 * max 0
         ((walkAux q startLocation endLocation
            (randomShuffle q items p2).1 (0, 0, 0) (randomShuffle q items p2).2).1.2.1 - m)) := by
  refine ⟨runTrials_length q startLocation endLocation items maxTime iterations pos, ?_, ?_⟩
  · have hlen := runTrials_length q startLocation endLocation items maxTime iterations pos
    have hne : (runTrials q startLocation endLocation items maxTime iterations pos).1 ≠ [] := by
      intro h
      rw [h] at hlen
      simp [iterations] at hlen
    rcases pickBest_none_spec _ items hne with ⟨pre, c, post, hts, hres, hpre, hpost⟩
    exact ⟨pre, c, post, hts, hres, hpre, hpost⟩
  · simp only [runTrial]
    by_cases hm : m = 0
    · rw [if_neg (fun h => h.1 hm), if_pos hm, sub_zero]
    · rw [if_neg hm]
      by_cases hlt : m < (walkAux q startLocation endLocation
          (randomShuffle q items p2).1 (0, 0, 0) (randomShuffle q items p2).2).1.2.1
      · rw [if_pos ⟨hm, hlt⟩, max_eq_right (sub_nonneg.2 (le_of_lt hlt))]
        ring
      · rw [if_neg (fun h => hlt h.2), max_eq_left (sub_nonpos.2 (not_lt.1 hlt))]
        ring

/-- Counterexample to C4 as stated: with budget `0` supplied and a total trial
time of `10` exceeding it, the trial's score is the raw score `0`, not the
penalized `0 - (10 - 0) * 0.1` the claim's wording demands — a zero budget is
falsy in the source and disables the penalty. -/
theorem c4_zero_budget_cex :
    (walkAux oneStream "S" "E" [] (0, 0, 0) 0).1.1 = 0 ∧
    (walkAux oneStream "S" "E" [] (0, 0, 0) 0).1.2.1 = 10 ∧
    (0 : ℝ) < 10 ∧
    (runTrial oneStream "S" "E" [] (some 0) 0).1.2 = 0 ∧
    (0 : ℝ) ≠ 0 - (10 - 0) * 0.1 := by
  have hw : (walkAux oneStream "S" "E" [] ((0 : ℝ), (0 : ℝ), (0 : ℝ)) 0) =
      ((0, 10, (calculateDistance "S" "E") * 15 + oneStream 9 * 50), 10) := by
    simp only [walkAux, generateRouteFactors, dist_SE, oneStream]
    norm_num
  refine ⟨by rw [hw], by rw [hw], by norm_num, ?_, by norm_num⟩
  simp only [runTrial, randomShuffle, hw]
  norm_num

/-- C7 (amended): `calculateTotalDistance` draws nothing from the random
stream and is trivially idempotent; `calculateTotalTime` is a function of its
arguments and of the stream values at the ten draws it makes per leg
(including the closing leg), so it is deterministic given the stream — but
each call advances the shared stream. -/
theorem c7_aggregator (q1 q2 : ℕ → ℝ) (startLocation endLocation : String)
    (route : List ScheduleItem) (pos : ℕ)
    (h : ∀ i < 10 * (route.length + 1), q1 (pos + i) = q2 (pos + i)) :
    calculateTotalDistance startLocation endLocation route =
      calculateTotalDistance startLocation endLocation route ∧
    calculateTotalTime q1 startLocation endLocation route pos =
      calculateTotalTime q2 startLocation endLocation route pos :=
  ⟨rfl, totalTimeAux_congr endLocation route startLocation 0 pos h⟩

/-- Witness for C7 at a concrete input (equal streams, empty route). -/
theorem c7_aggregator_witness :
    (∀ i < 10 * (([] : List ScheduleItem).length + 1),
      natStream (0 + i) = natStream (0 + i)) ∧
    (calculateTotalDistance "S" "E" [] = calculateTotalDistance "S" "E" [] ∧
     calculateTotalTime natStream "S" "E" [] 0 =
       calculateTotalTime natStream "S" "E" [] 0) :=
  ⟨fun _ _ => rfl, c7_aggregator natStream natStream "S" "E" [] 0 (fun _ _ => rfl)⟩

/-- Counterexample to C7 as stated: computing the total time twice on the same
arguments yields `0` and then `100`, because the second computation starts
from the stream position the first one left behind — the Metrics Aggregator's
time total is not idempotent under the global random source. -/
theorem c7_not_idempotent_cex :
    (calculateTotalTime natStream "S" "E" [] 0).1 ≠
      (calculateTotalTime natStream "S" "E" []
        ((calculateTotalTime natStream "S" "E" [] 0).2)).1 := by
  simp only [calculateTotalTime, totalTimeAux, generateRouteFactors, dist_SE, natStream]
  norm_num

/-- C8 (amended): with the global random source modelled as an explicit
stream, the Stochastic Route Search is a pure function of its inputs and the
stream — identical input and identical stream state yield the identical best
route, score, and final position. -/
theorem c8_deterministic_given_stream (q1 q2 : ℕ → ℝ)
    (startLocation endLocation : String) (items : List ScheduleItem)
    (maxTime : Option ℝ) (pos : ℕ) (h : ∀ n : ℕ, q1 n = q2 n) :
    searchPhase q1 startLocation endLocation items maxTime pos =
      searchPhase q2 startLocation endLocation items maxTime pos := by
  rw [funext h]

/-- Witness for C8's amended determinism statement. -/
theorem c8_deterministic_given_stream_witness :
    (∀ n : ℕ, natStream n = natStream n) ∧
    searchPhase natStream "S" "E" [] none 0 = searchPhase natStream "S" "E" [] none 0 :=
  ⟨fun _ => rfl,
    c8_deterministic_given_stream natStream natStream "S" "E" [] none 0 (fun _ => rfl)⟩

theorem cScore_zero : cScore 0 = 0 := by
  simp [cScore]

theorem cScore_nonpos (p : ℕ) : cScore p ≤ 0 := by
  simp only [cScore]
  by_cases h : (5 : ℝ) < (p : ℝ) * 10
  · rw [if_pos h]
    nlinarith
  · rw [if_neg h]

theorem cScore_antitone {a b : ℕ} (ha : 1 ≤ a) (hab : a ≤ b) :
    cScore b ≤ cScore a := by
  have haR : (1 : ℝ) ≤ (a : ℝ) := by exact_mod_cast ha
  have habR : (a : ℝ) ≤ (b : ℝ) := by exact_mod_cast hab
  simp only [cScore]
  rw [if_pos (by nlinarith), if_pos (by nlinarith)]
  nlinarith

theorem runTrial_nil_natStream (pos : ℕ) :
    runTrial natStream "S" "E" [] (some 5) pos = (([], cScore pos), pos + 10) := by
  simp only [runTrial, randomShuffle, walkAux, generateRouteFactors, dist_SE,
    natStream, cScore]
  norm_num

theorem runTrials_nil_natStream :
    ∀ (n pos : ℕ),
      runTrials natStream "S" "E" [] (some 5) n pos =
        ((List.range n).map fun k => (([] : List ScheduleItem), cScore (pos + 10 * k)),
          pos + 10 * n) := by
  intro n
  induction n with
  | zero => intro pos; simp [runTrials]
  | succ k ih =>
    intro pos
    simp only [runTrials, runTrial_nil_natStream, ih]
    refine Prod.ext ?_ (by omega)
    rw [List.range_succ_eq_map, List.map_cons, List.map_map]
    simp only [Function.comp]
    refine congrArg₂ List.cons (by norm_num) ?_
    refine List.map_congr_left ?_
    intro a _
    simp only [Function.comp_apply]
    have : pos + 10 * Nat.succ a = pos + 10 + 10 * a := by omega
    rw [this]

theorem searchPhase_nil_natStream (pos : ℕ) :
    searchPhase natStream "S" "E" [] (some 5) pos =
      (([], some (cScore pos)), pos + 1000) := by
  simp only [searchPhase, runTrials_nil_natStream, iterations]
  refine Prod.ext ?_ (by omega)
  rw [List.range_succ_eq_map, List.map_cons, List.map_map]
  have hstep : ∀ (rest : List (List ScheduleItem × ℝ)) (x : List ScheduleItem × ℝ),
      pickBest (x :: rest) (([] : List ScheduleItem), none) =
        pickBest rest (x.1, some x.2) := by
    intro rest x
    simp [pickBest, beats]
  rw [hstep]
  have hx : pos + 10 * 0 = pos := by omega
  rw [hx]
  refine pickBest_stay _ _ _ ?_
  intro t ht
  rcases List.mem_map.1 ht with ⟨a, _, rfl⟩
  simp only [Function.comp]
  rcases Nat.eq_zero_or_pos pos with hp | hp
  · subst hp
    simp only [Nat.zero_add, cScore_zero]
    exact cScore_nonpos _
  · exact cScore_antitone hp (by omega)

/-- Counterexample to C8 as stated: the random source is the advancing global
stream, not an injectable seeded generator — two successive invocations of the
Stochastic Route Search with identical inputs return different best scores
(`0` and then `-999.5`), since the second run starts at the stream position
the first one left behind. -/
theorem c8_global_stream_cex :
    (searchPhase natStream "S" "E" [] (some 5) 0).1 ≠
      (searchPhase natStream "S" "E" [] (some 5)
        ((searchPhase natStream "S" "E" [] (some 5) 0).2)).1 := by
  rw [searchPhase_nil_natStream]
  have h2 := searchPhase_nil_natStream ((0 : ℕ) + 1000)
  simp only at h2
  rw [h2]
  simp only [ne_eq, Prod.mk.injEq, Option.some.injEq, cScore, cScore_zero]
  norm_num

/-- C9 (amended): for every non-empty destination list and every supplied
nonzero time budget under which no destination is admissible — every
destination's leg duration plus dwell time from the start exceeds
`0.9 × budget` for any draw the stream can supply — the engine returns without
error, with an empty optimized (admitted) list and a dropped list that is the
full input destination set (as a permutation).  A zero budget is falsy in the
source and skips pruning entirely. -/
theorem c9_infeasible_budget (q : ℕ → ℝ) (startLocation endLocation : String)
    (items : List ScheduleItem) (m : ℝ) (pos : ℕ)
    (_hne : items ≠ []) (hm : m ≠ 0)
    (hfail : ∀ item ∈ items, ∀ i : ℕ,
      m * 0.9 < calculateDistance startLocation item.name * 3 + q i * 10 +
        item.dwellTime) :
    (optimizeRouteRL q startLocation endLocation items (some m) pos).optimizedRoute = [] ∧
    (optimizeRouteRL q startLocation endLocation items
      (some m) pos).metrics.droppedPOIs.Perm items := by
  have hperm : (sortD (searchedRoute q startLocation endLocation items
      (some m) pos)).Perm items :=
    (sortD_perm _).trans (searchedRoute_perm q startLocation endLocation items (some m) pos)
  have hall : ∀ item ∈ sortD (searchedRoute q startLocation endLocation items (some m) pos),
      ∀ i : ℕ,
      m * 0.9 < calculateDistance startLocation item.name * 3 + q i * 10 +
        item.dwellTime :=
    fun item hmem i => hfail item (hperm.subset hmem) i
  have hdrop := pruneAux_all_drop q m startLocation
    (sortD (searchedRoute q startLocation endLocation items (some m) pos))
    (searchPhase q startLocation endLocation items (some m) pos).2 hall
  constructor
  · show optimizedRouteOf q startLocation endLocation items (some m) pos = []
    simp only [optimizedRouteOf, pruneStage]
    rw [if_neg hm]
    dsimp only
    rw [hdrop.1]
    rfl
  · show (droppedOf q startLocation endLocation items (some m) pos).Perm items
    simp only [droppedOf, pruneStage]
    rw [if_neg hm]
    dsimp only
    rw [hdrop.2]
    exact hperm

/-- Witness for C9 at a concrete input: one destination "A" with dwell `100`
against budget `100` (admission bound `90`), drawing `1` from the stream. -/
theorem c9_infeasible_budget_witness :
    ([⟨"1", "A", "t", 5, 100, none, none⟩] : List ScheduleItem) ≠ [] ∧
    (100 : ℝ) ≠ 0 ∧
    (∀ item ∈ ([⟨"1", "A", "t", 5, 100, none, none⟩] : List ScheduleItem), ∀ i : ℕ,
      (100 : ℝ) * 0.9 < calculateDistance "S" item.name * 3 + oneStream i * 10 +
        item.dwellTime) ∧
    ((optimizeRouteRL oneStream "S" "E" [⟨"1", "A", "t", 5, 100, none, none⟩]
        (some 100) 0).optimizedRoute = [] ∧
      (optimizeRouteRL oneStream "S" "E" [⟨"1", "A", "t", 5, 100, none, none⟩]
        (some 100) 0).metrics.droppedPOIs.Perm
        [⟨"1", "A", "t", 5, 100, none, none⟩]) := by
  have hfail : ∀ item ∈ ([⟨"1", "A", "t", 5, 100, none, none⟩] : List ScheduleItem),
      ∀ i : ℕ,
      (100 : ℝ) * 0.9 < calculateDistance "S" item.name * 3 + oneStream i * 10 +
        item.dwellTime := by
    intro item hmem i
    rw [List.mem_singleton] at hmem
    subst hmem
    simp only [oneStream, dist_SA]
    norm_num
  exact ⟨by simp, by norm_num, hfail,
    c9_infeasible_budget oneStream "S" "E" _ 100 0 (by simp) (by norm_num) hfail⟩

/-- Counterexample to C9 as stated: with a supplied budget of `0` — under
which no destination is admissible, since every leg duration plus dwell
exceeds `0.9 × 0 = 0` — the engine skips pruning entirely (a zero `maxTime`
is falsy), keeping the full destination list admitted and dropping nothing,
instead of dropping everything as the claim requires. -/
theorem c9_zero_budget_cex :
    (∀ item ∈ ([⟨"1", "A", "t", 5, 100, none, none⟩] : List ScheduleItem), ∀ i : ℕ,
      (0 : ℝ) * 0.9 < calculateDistance "S" item.name * 3 + oneStream i * 10 +
        item.dwellTime) ∧
    (optimizeRouteRL oneStream "S" "E" [⟨"1", "A", "t", 5, 100, none, none⟩]
      (some 0) 0).optimizedRoute = [⟨"1", "A", "t", 5, 100, none, none⟩] ∧
    (optimizeRouteRL oneStream "S" "E" [⟨"1", "A", "t", 5, 100, none, none⟩]
      (some 0) 0).metrics.droppedPOIs = [] := by
  refine ⟨?_, ?_, ?_⟩
  · intro item hmem i
    rw [List.mem_singleton] at hmem
    subst hmem
    simp only [oneStream, dist_SA]
    norm_num
  · show optimizedRouteOf oneStream "S" "E" [⟨"1", "A", "t", 5, 100, none, none⟩]
      (some 0) 0 = [⟨"1", "A", "t", 5, 100, none, none⟩]
    simp only [optimizedRouteOf, pruneStage]
    rw [if_pos trivial]
    exact List.perm_singleton.1
      (searchedRoute_perm oneStream "S" "E" _ (some 0) 0)
  · show droppedOf oneStream "S" "E" [⟨"1", "A", "t", 5, 100, none, none⟩]
      (some 0) 0 = []
    simp only [droppedOf, pruneStage]
    rw [if_pos trivial]

/-- Witness for C10 at the concrete unknown names "S" and "E". -/
theorem c10_fallback_witness :
    mockCoordinates "S" = none ∧ mockCoordinates "E" = none ∧
    (resolveCoord "S" = fallbackCoord ∧
    mockCoordinates "Home" = some fallbackCoord ∧
    calculateDistance "S" "E" = 0 ∧
    calculateDistance "S" "Home" = 0 ∧
    calculateDistance "Home" "E" = 0) :=
  ⟨mockCoordinates_S, mockCoordinates_E,
    c10_fallback "S" "E" mockCoordinates_S mockCoordinates_E⟩


